import Mathlib

/-!
Shallow embedding of `src/composite.cpp` (the composite-pattern tree engine).

Modelling conventions:
- Heap object identity (the raw `Graphic*` addresses the driver uses as
  removal handles) is modelled by a `Nat` id carried by every node; distinct
  live C++ objects have distinct addresses, which becomes a `Nodup`
  hypothesis on the ids of a container's children where identity matters.
- `std::unique_ptr` ownership makes every node a tree value owned by exactly
  one place, so a node is embedded as an inductive tree value; `add` moving a
  `unique_ptr` into the child list is list append.
- `std::cout` output is modelled as a `List String`, one element per `draw`
  call of a leaf, each element being exactly the characters that call streams.
- Machine `int` is modelled as `Int` (no overflow is exercised anywhere).
- The value embedding represents the owned structure of each container and
  models each call's effect on that structure; heap aliasing is outside it.
  In particular, moving a container's own owning pointer into its child list
  (`raw->add(std::move(c))` where `raw == c.get()`) creates a self-owning
  cycle in C++ on which `draw`/`move` recurse without terminating; that
  state is not representable here, and no theorem below asserts anything
  about traversal after such aliasing.
-/

namespace Composite

/-- Identity of a heap-allocated node: stands for the `Graphic*` address that
the driver captures before `add` and later passes to `remove`. -/
abbrev Handle := Nat

/-- A node of the composite tree: `Dot` and `Circle` are the leaf classes,
`compound` is `CompoundGraphic` with its `std::list<std::unique_ptr<Graphic>>
children`. The `Handle` component is the object's address (identity). -/
inductive Graphic where
  | dot (id : Handle) (x y : Int)
  | circle (id : Handle) (x y : Int) (radius : Int)
  | compound (id : Handle) (children : List Graphic)

/-- Address (identity) of a node, used by `CompoundGraphic::remove`'s
pointer comparison `it->get() == child`. -/
def Graphic.id : Graphic → Handle
  | .dot i _ _ => i
  | .circle i _ _ _ => i
  | .compound i _ => i

/-- The two alternatives of `std::variant<Leaf*, Compound*>` returned by
`Graphic::Type()`. -/
inductive Kind where
  | leaf
  | container
deriving DecidableEq

/-- Embeds `Graphic::Type()`: `Leaf::Type()` returns `this` as `Leaf*`
(for `Dot` and `Circle`), `Compound::Type()` returns `this` as `Compound*`
(for `CompoundGraphic`). The function is total: querying never fails. -/
def Graphic.Type' : Graphic → Kind
  | .dot _ _ _ => .leaf
  | .circle _ _ _ _ => .leaf
  | .compound _ _ => .container

mutual

/-- Embeds `move(int x, int y)`: `Dot::move` (inherited by `Circle`) assigns
`this->x = x; this->y = y;`, and `CompoundGraphic::move` calls
`c->move(x, y)` on each child in order. -/
def Graphic.move : Graphic → Int → Int → Graphic
  | .dot i _ _, x, y => .dot i x y
  | .circle i _ _ r, x, y => .circle i x y r
  | .compound i cs, x, y => .compound i (moveList cs x y)

/-- The loop body of `CompoundGraphic::move` over the child list. -/
def moveList : List Graphic → Int → Int → List Graphic
  | [], _, _ => []
  | c :: cs, x, y => c.move x y :: moveList cs x y

end

mutual

/-- Embeds `draw()`: `Dot::draw` streams
`"Drawing Dot, x: " << x << ", y: " << y << "\n"`, `Circle::draw` streams
`"Drawing Circle, x: " << x << ", y: " << y << "\n"` (the radius is not
streamed), and `CompoundGraphic::draw` calls `c->draw()` on each child in
order. Each list element is the text of one leaf `draw` call. -/
def Graphic.draw : Graphic → List String
  | .dot _ x y => ["Drawing Dot, x: " ++ toString x ++ ", y: " ++ toString y ++ "\n"]
  | .circle _ x y _ => ["Drawing Circle, x: " ++ toString x ++ ", y: " ++ toString y ++ "\n"]
  | .compound _ cs => drawList cs

/-- The loop body of `CompoundGraphic::draw` over the child list. -/
def drawList : List Graphic → List String
  | [] => []
  | c :: cs => c.draw ++ drawList cs

end

/-- Embeds `CompoundGraphic::add`: `children.push_back(std::move(child))`.
It acts on the container's child list and is unconditional — the body
performs no check of any kind and cannot fail. `child` is the owned tree
value being moved in; the aliasing created when the moved-in pointer is the
container's own owner (a self-owning cycle in C++) is not representable in
this value model, so facts about the heap after that special call are out of
the model's reach. -/
def CompoundGraphic.add (children : List Graphic) (child : Graphic) : List Graphic :=
  children ++ [child]

/-- The value `CompoundGraphic::add` returns to its caller: the member is
declared `void add(...)`, so the return carries no information. -/
def CompoundGraphic.addReturn (_children : List Graphic) (_child : Graphic) : Unit := ()

/-- Embeds `CompoundGraphic::remove(Graphic* child)`: scan the child list in
order, erase the first child whose address equals `child` and return;
if no child matches, fall off the loop and return with no effect. -/
def CompoundGraphic.remove : List Graphic → Handle → List Graphic
  | [], _ => []
  | c :: cs, h => if c.id = h then cs else c :: CompoundGraphic.remove cs h

mutual

/-- Reported positions of all leaf nodes (`Dot`s and `Circle`s) of a tree,
in traversal order. -/
def Graphic.leafPositions : Graphic → List (Int × Int)
  | .dot _ x y => [(x, y)]
  | .circle _ x y _ => [(x, y)]
  | .compound _ cs => leafPositionsList cs

/-- Leaf positions of a child list, in order. -/
def leafPositionsList : List Graphic → List (Int × Int)
  | [] => []
  | c :: cs => c.leafPositions ++ leafPositionsList cs

end

mutual

/-- The `Type()` variants of every node of a tree, in preorder. -/
def Graphic.kindsOf : Graphic → List Kind
  | .dot _ _ _ => [.leaf]
  | .circle _ _ _ _ => [.leaf]
  | .compound _ cs => .container :: kindsList cs

/-- Kinds of every node of a child list, in preorder. -/
def kindsList : List Graphic → List Kind
  | [] => []
  | c :: cs => c.kindsOf ++ kindsList cs

end

/-- The `Dot` the driver (`main`) creates: `std::make_unique<Dot>(10, 20)`,
whose address it keeps as `raw_d`. Its identity is modelled as `1`. -/
def scenarioDot : Graphic := .dot 1 10 20

/-- The `Circle` the driver creates: `std::make_unique<Circle>(5, 5, 3)`.
Its identity is modelled as `2`. -/
def scenarioCircle : Graphic := .circle 2 5 5 3

/-- The child list of `root` after the driver's two `add` calls. -/
def rootChildren : List Graphic :=
  CompoundGraphic.add (CompoundGraphic.add [] scenarioDot) scenarioCircle

end Composite

namespace Composite

mutual

/-- A second `move` overwrites the coordinates a first `move` wrote, at every
node of the tree. -/
theorem move_move (g : Graphic) (a b u v : Int) :
    (g.move a b).move u v = g.move u v := by
  cases g with
  | dot i x y => rfl
  | circle i x y r => rfl
  | compound i cs =>
      simp only [Graphic.move, moveList_moveList]

/-- List version of `move_move`. -/
theorem moveList_moveList (cs : List Graphic) (a b u v : Int) :
    moveList (moveList cs a b) u v = moveList cs u v := by
  cases cs with
  | nil => rfl
  | cons c cs =>
      simp only [moveList, move_move, moveList_moveList]

end

mutual

/-- After `move x y`, every leaf of the tree reports position `(x, y)`. -/
theorem leafPositions_move (g : Graphic) (x y : Int) :
    (g.move x y).leafPositions = List.replicate g.leafPositions.length (x, y) := by
  cases g with
  | dot i a b => rfl
  | circle i a b r => rfl
  | compound i cs =>
      simp only [Graphic.move, Graphic.leafPositions, leafPositionsList_move]

/-- List version of `leafPositions_move`. -/
theorem leafPositionsList_move (cs : List Graphic) (x y : Int) :
    leafPositionsList (moveList cs x y) =
      List.replicate (leafPositionsList cs).length (x, y) := by
  cases cs with
  | nil => rfl
  | cons c cs =>
      simp only [moveList, leafPositionsList, leafPositions_move c x y,
        leafPositionsList_move cs x y, List.length_append,
        List.replicate_add, List.replicate]

end

mutual

/-- Moving a tree does not change the kind any of its nodes reports. -/
theorem kindsOf_move (g : Graphic) (x y : Int) :
    (g.move x y).kindsOf = g.kindsOf := by
  cases g with
  | dot i a b => rfl
  | circle i a b r => rfl
  | compound i cs =>
      simp only [Graphic.move, Graphic.kindsOf, kindsList_move]

/-- List version of `kindsOf_move`. -/
theorem kindsList_move (cs : List Graphic) (x y : Int) :
    kindsList (moveList cs x y) = kindsList cs := by
  cases cs with
  | nil => rfl
  | cons c cs =>
      simp only [moveList, kindsList, kindsOf_move, kindsList_move]

end

/-- The container draw loop distributes over list append. -/
theorem drawList_append (cs ds : List Graphic) :
    drawList (cs ++ ds) = drawList cs ++ drawList ds := by
  induction cs with
  | nil => rfl
  | cons c cs ih => simp [drawList, ih]

/-- The container draw loop concatenates the children's drawings in order. -/
theorem drawList_eq_flatten (cs : List Graphic) :
    drawList cs = (cs.map Graphic.draw).flatten := by
  induction cs with
  | nil => rfl
  | cons c cs ih => simp [drawList, ih]

/-- Folding `add` over a list of nodes appends them, in order, to the
child list. -/
theorem foldl_add (ns : List Graphic) (acc : List Graphic) :
    List.foldl CompoundGraphic.add acc ns = acc ++ ns := by
  induction ns generalizing acc with
  | nil => simp
  | cons n ns ih => simp [List.foldl, CompoundGraphic.add, ih]

/-- If no child has the handle's identity, `remove` leaves the child list
unchanged. -/
theorem remove_of_not_mem (cs : List Graphic) (h : Handle)
    (hm : h ∉ cs.map Graphic.id) :
    CompoundGraphic.remove cs h = cs := by
  induction cs with
  | nil => rfl
  | cons c cs ih =>
      simp only [List.map, List.mem_cons, not_or] at hm
      have hne : ¬ c.id = h := fun hc => hm.1 hc.symm
      simp only [CompoundGraphic.remove, if_neg hne, ih hm.2]

/-- If the children's identities are pairwise distinct (as C++ heap
addresses of distinct live objects are), the handle's identity no longer
occurs among the children after `remove`. -/
theorem not_mem_map_id_remove (cs : List Graphic) (h : Handle)
    (hn : (cs.map Graphic.id).Nodup) :
    h ∉ (CompoundGraphic.remove cs h).map Graphic.id := by
  induction cs with
  | nil => simp [CompoundGraphic.remove]
  | cons c cs ih =>
      simp only [List.map, List.nodup_cons] at hn
      by_cases hc : c.id = h
      · simpa [CompoundGraphic.remove, hc] using fun hmem => hn.1 (hc ▸ hmem)
      · simp only [CompoundGraphic.remove, if_neg hc, List.map, List.mem_cons,
          not_or]
        exact ⟨fun he => hc he.symm, ih hn.2⟩

/-- C1 counterexample: a `Dot` at `(10, 20)` inside a container, moved by
`move(5, 5)`, reports position `(5, 5)` — not the claimed
`old position + (dx, dy) = (15, 25)`. `Dot::move` assigns its arguments as
the new coordinates; it does not translate. -/
theorem C1_counterexample :
    Graphic.leafPositions (Graphic.move (.compound 0 [.dot 1 10 20]) 5 5) =
      [(5, 5)] ∧
    ¬ (((5 : Int), (5 : Int)) = ((10 : Int) + 5, (20 : Int) + 5)) :=
  ⟨rfl, by decide⟩

/-- C1 (amended): calling `move(x, y)` on a container sets the reported
position of every leaf at any depth under it to exactly `(x, y)` — an
absolute assignment, not a translation; nodes outside the moved tree are
separate owned values and are untouched. -/
theorem C1_theorem (i : Handle) (cs : List Graphic) (x y : Int) :
    (Graphic.move (.compound i cs) x y).leafPositions =
      List.replicate (Graphic.leafPositions (.compound i cs)).length (x, y) :=
  leafPositions_move (.compound i cs) x y

/-- C3 counterexample: the body of `CompoundGraphic::add` (a bare
`push_back`) performs no ancestor or cycle check and has no failure outcome,
so no call of `add` — a self-insertion attempt included — fails with
`CycleDetected`: the attempt to add the container with identity 0 to its own
(empty) child list completes normally and appends it. -/
theorem C3_counterexample :
    CompoundGraphic.add [] (.compound 0 []) = [.compound 0 []] ∧
    (CompoundGraphic.add [] (.compound 0 [])).length = 1 :=
  ⟨rfl, rfl⟩

/-- C3 (amended): `add` performs no cycle detection and never fails: it
unconditionally appends its argument at the end of the child list, growing
the child count by one. The source leaves the self-owning cycle that
self-insertion creates unguarded; what `draw`/`move` do on that aliased heap
(in C++ they recurse forever) is outside this value model and is not
claimed. -/
theorem C3_theorem (cs : List Graphic) (c : Graphic) :
    (CompoundGraphic.add cs c).length = cs.length + 1 ∧
    (CompoundGraphic.add cs c).getLast? = some c :=
  ⟨by simp [CompoundGraphic.add], by simp [CompoundGraphic.add]⟩

/-- C4: provided the children's identities are pairwise distinct (as the
addresses of distinct live C++ objects are), `remove(h)` twice equals
`remove(h)` once, and when `h` matches no child, `remove(h)` changes nothing
— and `remove` returns `void`, so no error is reported in either case. -/
theorem C4_theorem (cs : List Graphic) (h : Handle)
    (hn : (cs.map Graphic.id).Nodup) :
    CompoundGraphic.remove (CompoundGraphic.remove cs h) h =
      CompoundGraphic.remove cs h ∧
    (h ∉ cs.map Graphic.id → CompoundGraphic.remove cs h = cs) :=
  ⟨remove_of_not_mem _ h (not_mem_map_id_remove cs h hn),
   remove_of_not_mem cs h⟩

/-- C4 witness: the idempotence theorem applied to a concrete two-child
container with distinct identities. -/
theorem C4_witness :
    ([Graphic.dot 1 10 20, Graphic.circle 2 5 5 3].map Graphic.id).Nodup ∧
    (CompoundGraphic.remove
        (CompoundGraphic.remove [Graphic.dot 1 10 20, Graphic.circle 2 5 5 3] 1) 1 =
      CompoundGraphic.remove [Graphic.dot 1 10 20, Graphic.circle 2 5 5 3] 1 ∧
    ((1 : Handle) ∉ [Graphic.dot 1 10 20, Graphic.circle 2 5 5 3].map Graphic.id →
      CompoundGraphic.remove [Graphic.dot 1 10 20, Graphic.circle 2 5 5 3] 1 =
        [Graphic.dot 1 10 20, Graphic.circle 2 5 5 3])) :=
  ⟨by decide, C4_theorem [Graphic.dot 1 10 20, Graphic.circle 2 5 5 3] 1 (by decide)⟩

/-- C5: a container built by a sequence of `add` calls draws the children's
descriptions concatenated in exactly add order (each child's own drawing
being recursively of the same shape), and a container with no children
draws an empty representation. -/
theorem C5_theorem :
    (∀ (i : Handle) (ns : List Graphic),
      Graphic.draw (.compound i (List.foldl CompoundGraphic.add [] ns)) =
        (ns.map Graphic.draw).flatten) ∧
    (∀ i : Handle, Graphic.draw (.compound i []) = []) := by
  refine ⟨fun i ns => ?_, fun i => rfl⟩
  simp only [Graphic.draw, foldl_add, List.nil_append, drawList_eq_flatten]

/-- C6 counterexample: `CompoundGraphic::add` is declared `void`, so its
return value is the same for adds of nodes with different identities — the
return identifies nothing, contradicting "returns a handle identifying the
newly owned node" (the driver captures the raw pointer before `add`
instead). -/
theorem C6_counterexample :
    CompoundGraphic.addReturn [] (.dot 1 10 20) =
      CompoundGraphic.addReturn [] (.dot 2 99 99) ∧
    Graphic.id (.dot 1 10 20) ≠ Graphic.id (.dot 2 99 99) :=
  ⟨rfl, by decide⟩

/-- C6 (amended): `add(n)` appends `n` at the end of the child sequence —
every previously held child keeps its position and `n` becomes the last
child — and never fails; it returns no handle (the member is `void`), the
caller retaining the node's identity obtained before the call. -/
theorem C6_theorem (cs : List Graphic) (c : Graphic) (i : Nat)
    (hi : i < cs.length) :
    (CompoundGraphic.add cs c).length = cs.length + 1 ∧
    (CompoundGraphic.add cs c)[i]? = cs[i]? ∧
    (CompoundGraphic.add cs c).getLast? = some c := by
  refine ⟨by simp [CompoundGraphic.add], ?_, by simp [CompoundGraphic.add]⟩
  simp [CompoundGraphic.add, List.getElem?_append_left hi]

/-- C6 witness: appending a `Circle` to a one-`Dot` container keeps the
`Dot` at index 0 and puts the `Circle` last. -/
theorem C6_witness :
    0 < [Graphic.dot 1 0 0].length ∧
    ((CompoundGraphic.add [Graphic.dot 1 0 0] (Graphic.circle 2 5 5 3)).length =
        [Graphic.dot 1 0 0].length + 1 ∧
      (CompoundGraphic.add [Graphic.dot 1 0 0] (Graphic.circle 2 5 5 3))[0]? =
        [Graphic.dot 1 0 0][0]? ∧
      (CompoundGraphic.add [Graphic.dot 1 0 0] (Graphic.circle 2 5 5 3)).getLast? =
        some (Graphic.circle 2 5 5 3)) :=
  ⟨by decide, C6_theorem [Graphic.dot 1 0 0] (Graphic.circle 2 5 5 3) 0 (by decide)⟩

/-- C7 counterexample: in the driver's scenario the drawn descriptions are
not the claimed strings, and `Circle::draw` does not render the radius at
all (circles differing only in radius draw identically), so no description
of the form `Circle(5,5,r=3)` is produced. -/
theorem C7_counterexample :
    drawList rootChildren ≠ ["Dot(10,20)", "Circle(5,5,r=3)"] ∧
    drawList (CompoundGraphic.remove rootChildren scenarioDot.id) ≠
      ["Circle(5,5,r=3)"] ∧
    Graphic.draw (.circle 2 5 5 3) = Graphic.draw (.circle 2 5 5 999) :=
  ⟨by decide, by decide, rfl⟩

/-- C7 (amended): after adding the `Dot(10, 20)` and then the
`Circle(5, 5, 3)` to the root, drawing emits
"Drawing Dot, x: 10, y: 20" then "Drawing Circle, x: 5, y: 5" in that
order (the radius is never part of the output); after removing via the
Dot's handle, drawing emits only the Circle's line. -/
theorem C7_theorem :
    drawList rootChildren =
      ["Drawing Dot, x: 10, y: 20\n", "Drawing Circle, x: 5, y: 5\n"] ∧
    drawList (CompoundGraphic.remove rootChildren scenarioDot.id) =
      ["Drawing Circle, x: 5, y: 5\n"] :=
  ⟨rfl, rfl⟩

/-- C8: with root `R` containing sub-container `S` containing a leaf at
`(0, 0)`, `move(R, 5, 5)` followed by `draw(R)` reports the leaf at
`(5, 5)` — the move reaches through two levels of nesting. -/
theorem C8_theorem :
    Graphic.draw (Graphic.move (.compound 0 [.compound 1 [.dot 2 0 0]]) 5 5) =
      ["Drawing Dot, x: 5, y: 5\n"] :=
  rfl

/-- C9: the kind reported by `Type()` is determined by the constructor and
is preserved by every operation: `move` preserves the reported kind of the
node and of every node of its tree, and `add`/`remove` leave the container
a container (`draw` computes a description without touching the tree, and
the kind query is a total function — it always succeeds). -/
theorem C9_theorem :
    (∀ (g : Graphic) (x y : Int), (g.move x y).Type' = g.Type') ∧
    (∀ (g : Graphic) (x y : Int), (g.move x y).kindsOf = g.kindsOf) ∧
    (∀ (i : Handle) (cs : List Graphic) (c : Graphic),
      Graphic.Type' (.compound i (CompoundGraphic.add cs c)) =
        Graphic.Type' (.compound i cs)) ∧
    (∀ (i : Handle) (cs : List Graphic) (h : Handle),
      Graphic.Type' (.compound i (CompoundGraphic.remove cs h)) =
        Graphic.Type' (.compound i cs)) := by
  refine ⟨fun g x y => ?_, kindsOf_move, fun _ _ _ => rfl, fun _ _ _ => rfl⟩
  cases g <;> rfl

/-- C10: `move` is last-write-wins — `move(a, b)` then `move(u, v)` leaves
any node (leaves included) exactly as `move(u, v)` alone — and after
`move(x, y)` every leaf of the moved tree reports the identical position
`(x, y)` regardless of where it was before. -/
theorem C10_theorem :
    (∀ (g : Graphic) (a b u v : Int), (g.move a b).move u v = g.move u v) ∧
    (∀ (g : Graphic) (x y : Int),
      (g.move x y).leafPositions =
        List.replicate g.leafPositions.length (x, y)) :=
  ⟨move_move, leafPositions_move⟩

end Composite
